import Mathlib

/-!
Verification of the credential-lifecycle, signing-key, token and WebAuthn
ceremony core of the `hoa` identity provider.

The development is a shallow embedding of the Python sources:

* `hoa/utils/crypto.py` — password and opaque-token hashing;
* `hoa/services/auth_methods.py` — the credential lifecycle manager over the
  single-table `AuthMethod` model of `hoa/models/auth_method.py`;
* `hoa/api/users.py` — the delete endpoint that enforces the credential floor;
* `hoa/services/jwt_service.py` — signing-key lifecycle and token issue/verify;
* `hoa/services/webauthn.py` — relying-party allow-list and ceremony calls.

The relational store is modelled as an insertion-ordered list of rows; a
SQLAlchemy `first()` query is `List.find?`, an in-place update of the fetched
row rewrites the first matching row, `db.delete` removes it.  External
cryptographic collaborators (bcrypt, SHA-256, the RSA key-pair generator and
the JWT codec's signature check) are modelled as ideal injective primitives,
as the spec's section 6 treats them as assumed-correct collaborators.
-/

/- ## Crypto primitives (`hoa/utils/crypto.py`) -/

/-- Model of the external bcrypt digest: bcrypt of a byte string under a salt
is collision-free, so the digest is modelled as the pair of the salt and the
hashed bytes.  The real digest string encodes the salt, which is how
`bcrypt.checkpw` recovers it. -/
structure BcryptDigest where
  salt : String
  body : List UInt8
deriving DecidableEq

/-- Model of `bcrypt.hashpw(password_bytes, salt)`. -/
def bcryptHashpw (pw : List UInt8) (salt : String) : BcryptDigest :=
  { salt := salt, body := pw }

/-- Model of `bcrypt.checkpw`: re-hash the candidate under the digest's salt
and compare. -/
def bcryptCheckpw (pw : List UInt8) (d : BcryptDigest) : Bool :=
  decide (bcryptHashpw pw d.salt = d)

/-- The UTF-8 encoding of a string as a byte list — `password.encode('utf-8')`.
This is precisely the byte content of `String.toUTF8`. -/
def utf8Bytes (s : String) : List UInt8 := s.data.flatMap String.utf8EncodeChar

/-- `hash_password` (crypto.py lines 12-35): UTF-8 encode, truncate to the
72-byte bcrypt limit, then bcrypt under a fresh salt (the salt drawn by
`bcrypt.gensalt()` is passed explicitly). -/
def hash_password (password : String) (salt : String) : BcryptDigest :=
  let passwordBytes := utf8Bytes password
  let passwordBytes := if passwordBytes.length > 72 then passwordBytes.take 72 else passwordBytes
  bcryptHashpw passwordBytes salt

/-- `verify_password` (crypto.py lines 38-57): UTF-8 encode, truncate to 72
bytes, then `bcrypt.checkpw` against the stored digest. -/
def verify_password (plainPassword : String) (hashedPassword : BcryptDigest) : Bool :=
  let passwordBytes := utf8Bytes plainPassword
  let passwordBytes := if passwordBytes.length > 72 then passwordBytes.take 72 else passwordBytes
  bcryptCheckpw passwordBytes hashedPassword

/-- Model of the external SHA-256 hex digest, an injective tagging of the
input (`hashlib.sha256(token.encode()).hexdigest()`). -/
def sha256Hex (s : String) : String := "sha256:" ++ s

/-- `hash_token` (crypto.py lines 60-70). -/
def hash_token (token : String) : String := sha256Hex token

/-- `verify_token` over opaque tokens (crypto.py lines 73-84):
constant-time comparison of the candidate's hash with the stored hash. -/
def verify_opaque_token (plainToken : String) (hashedToken : String) : Bool :=
  hash_token plainToken == hashedToken

/- ## Credential data model (`hoa/models/auth_method.py`) -/

/-- One row of the single-table-inheritance `auth_methods` table: the shared
envelope plus the union of all variant payload columns (each nullable, as in
the model file).  UUIDs are opaque identifiers, modelled as naturals;
timestamps are naturals. -/
structure AuthMethod where
  id : Nat
  user_id : Nat
  type : String
  identifier : Option String
  enabled : Bool
  requires_approval : Bool
  approved : Bool
  approved_by : Option Nat
  approved_at : Option Nat
  created_at : Nat
  credential_id : Option String
  public_key : Option String
  sign_count : Option Int
  transports : Option String
  rp_id : Option String
  password_hash : Option BcryptDigest
  password_changed_at : Option Nat
  provider : Option String
  provider_user_id : Option String
  access_token_encrypted : Option String
  refresh_token_encrypted : Option String
  token_hash : Option String
  description : Option String
  expires_at : Option Nat
  last_used_at : Option Nat
deriving DecidableEq

/-- Replace the first row satisfying `p` (models assigning to the attributes
of the single object a `first()` query returned and committing). -/
def setFirst (p : AuthMethod → Bool) (new : AuthMethod) : List AuthMethod → List AuthMethod
  | [] => []
  | m :: ms => if p m then new :: ms else m :: setFirst p new ms

/-- Remove the first row satisfying `p` (models `db.delete` of the object a
`first()` query returned). -/
def removeFirst (p : AuthMethod → Bool) : List AuthMethod → List AuthMethod
  | [] => []
  | m :: ms => if p m then ms else m :: removeFirst p ms

/- ## Credential lifecycle manager (`hoa/services/auth_methods.py`) -/

/-- `AuthMethodService.get_by_id` (auth_methods.py lines 24-34). -/
def get_by_id (st : List AuthMethod) (amid : Nat) : Option AuthMethod :=
  st.find? (fun m => m.id == amid)

/-- The row filter of `count_user_auth_methods`:
`AuthMethod.user_id == user_id, AuthMethod.enabled == True,
AuthMethod.approved == True`. -/
def enabledApprovedFor (uid : Nat) (m : AuthMethod) : Bool :=
  m.user_id == uid && m.enabled && m.approved

/-- `AuthMethodService.count_user_auth_methods` (auth_methods.py lines
324-348): counts the user's rows with `enabled == True` and
`approved == True`, optionally filtered by type. -/
def count_user_auth_methods (st : List AuthMethod) (uid : Nat) (authType : Option String) : Nat :=
  match authType with
  | some t => ((st.filter (enabledApprovedFor uid)).filter (fun m => m.type == t)).length
  | none => (st.filter (enabledApprovedFor uid)).length

/-- `AuthMethodService.add_passkey` (auth_methods.py lines 88-135).  The
fresh row id and the clock are passed explicitly; `requiresApprovalOverride`
is the optional `requires_approval` argument, defaulting to the
`require_auth_method_approval` setting. -/
def add_passkey (requireApprovalSetting : Bool) (newId now userId : Nat)
    (credentialId publicKey rpId : String) (signCount : Int)
    (transports : Option (List String)) (identifier : Option String)
    (requiresApprovalOverride : Option Bool)
    (st : List AuthMethod) : AuthMethod × List AuthMethod :=
  let ra := requiresApprovalOverride.getD requireApprovalSetting
  let row : AuthMethod :=
    { id := newId, user_id := userId, type := "passkey", identifier := identifier
      enabled := true, requires_approval := ra, approved := !ra
      approved_by := none, approved_at := none, created_at := now
      credential_id := some credentialId, public_key := some publicKey
      sign_count := some signCount
      transports := match transports with
        | some ts => if ts.isEmpty then none else some (String.intercalate "," ts)
        | none => none
      rp_id := some rpId
      password_hash := none, password_changed_at := none
      provider := none, provider_user_id := none
      access_token_encrypted := none, refresh_token_encrypted := none
      token_hash := none, description := none, expires_at := none, last_used_at := none }
  (row, st ++ [row])

/-- `AuthMethodService.add_password` (auth_methods.py lines 137-170); the
bcrypt salt drawn inside `hash_password` is passed explicitly. -/
def add_password (requireApprovalSetting : Bool) (newId now userId : Nat)
    (password salt : String) (identifier : Option String)
    (st : List AuthMethod) : AuthMethod × List AuthMethod :=
  let ra := requireApprovalSetting
  let row : AuthMethod :=
    { id := newId, user_id := userId, type := "password", identifier := identifier
      enabled := true, requires_approval := ra, approved := !ra
      approved_by := none, approved_at := none, created_at := now
      credential_id := none, public_key := none, sign_count := none
      transports := none, rp_id := none
      password_hash := some (hash_password password salt)
      password_changed_at := some now
      provider := none, provider_user_id := none
      access_token_encrypted := none, refresh_token_encrypted := none
      token_hash := none, description := none, expires_at := none, last_used_at := none }
  (row, st ++ [row])

/-- `AuthMethodService.add_token` (auth_methods.py lines 172-205).  The
service object carries the settings, but the method never consults them:
token credentials are created `requires_approval = False, approved = True`
unconditionally. -/
def add_token (requireApprovalSetting : Bool) (newId now userId : Nat)
    (token description : String) (expiresAt : Option Nat)
    (st : List AuthMethod) : AuthMethod × List AuthMethod :=
  let _ := requireApprovalSetting
  let row : AuthMethod :=
    { id := newId, user_id := userId, type := "token", identifier := none
      enabled := true, requires_approval := false, approved := true
      approved_by := none, approved_at := none, created_at := now
      credential_id := none, public_key := none, sign_count := none
      transports := none, rp_id := none
      password_hash := none, password_changed_at := none
      provider := none, provider_user_id := none
      access_token_encrypted := none, refresh_token_encrypted := none
      token_hash := some (hash_token token), description := some description
      expires_at := expiresAt, last_used_at := none }
  (row, st ++ [row])

/-- `AuthMethodService.add_m2m_token` (auth_methods.py lines 415-435), a
plain alias of `add_token`. -/
def add_m2m_token (requireApprovalSetting : Bool) (newId now userId : Nat)
    (token description : String) (expiresAt : Option Nat)
    (st : List AuthMethod) : AuthMethod × List AuthMethod :=
  add_token requireApprovalSetting newId now userId token description expiresAt st

/-- `AuthMethodService.add_oauth2` (auth_methods.py lines 370-411). -/
def add_oauth2 (requireApprovalSetting : Bool) (newId now userId : Nat)
    (provider providerUserId : String) (identifier accessToken refreshToken : Option String)
    (st : List AuthMethod) : AuthMethod × List AuthMethod :=
  let ra := requireApprovalSetting
  let row : AuthMethod :=
    { id := newId, user_id := userId, type := "oauth2", identifier := identifier
      enabled := true, requires_approval := ra, approved := !ra
      approved_by := none, approved_at := none, created_at := now
      credential_id := none, public_key := none, sign_count := none
      transports := none, rp_id := none
      password_hash := none, password_changed_at := none
      provider := some provider, provider_user_id := some providerUserId
      access_token_encrypted := accessToken, refresh_token_encrypted := refreshToken
      token_hash := none, description := none, expires_at := none, last_used_at := none }
  (row, st ++ [row])

/-- Predicate of the polymorphic `query(PasskeyAuth)` row filter: single-table
inheritance restricts the query to rows whose discriminator is `passkey`. -/
def isPasskeyRow (amid : Nat) (m : AuthMethod) : Bool :=
  m.id == amid && m.type == "passkey"

/-- Result of `AuthMethodService.update_passkey_sign_count`:
`notFound` is the `return None` path; `typeErr` is the `TypeError` Python
raises from `max(None, n)` when the stored counter is NULL (never the case
for rows the service created). -/
inductive SignCountResult where
  | notFound
  | typeErr
  | updated (row : AuthMethod)
deriving DecidableEq

/-- `AuthMethodService.update_passkey_sign_count` (auth_methods.py lines
262-288): fetch the passkey row, store `max(stored, reported)`. -/
def update_passkey_sign_count (st : List AuthMethod) (amid : Nat) (newSignCount : Int) :
    SignCountResult × List AuthMethod :=
  match st.find? (isPasskeyRow amid) with
  | none => (.notFound, st)
  | some pk =>
    match pk.sign_count with
    | none => (.typeErr, st)
    | some c =>
      let pk2 := { pk with sign_count := some (max c newSignCount) }
      (.updated pk2, setFirst (isPasskeyRow amid) pk2 st)

/-- `AuthMethodService.delete` (auth_methods.py lines 290-307): no floor
check here — lookup, delete, report whether the row existed. -/
def service_delete (st : List AuthMethod) (amid : Nat) : Bool × List AuthMethod :=
  match get_by_id st amid with
  | none => (false, st)
  | some _ => (true, removeFirst (fun m => m.id == amid) st)

/-- `AuthMethodService.get_pending_approvals` (auth_methods.py lines
309-322): filter `requires_approval == True && approved == False` and cap at
`limit`.  The query has no `order_by`; rows come back in table order. -/
def get_pending_approvals (st : List AuthMethod) (limit : Nat) : List AuthMethod :=
  (st.filter (fun m => m.requires_approval && !m.approved)).take limit

/- ## Delete endpoint (`hoa/api/users.py` lines 65-93) -/

/-- Outcome of `DELETE /api/users/me/auth-methods/{id}`: `notFound` is the
404, `lastMethod` the 400 "Cannot delete last authentication method"
precondition failure, `ok` the success response. -/
inductive DeleteOutcome where
  | notFound
  | lastMethod
  | ok
deriving DecidableEq

/-- `delete_my_auth_method` (users.py lines 65-93): 404 unless the row exists
and belongs to the caller; 400 when the caller's count of enabled-and-approved
credentials (computed before the removal) is ≤ 1; otherwise delete. -/
def delete_my_auth_method (st : List AuthMethod) (currentUserId amid : Nat) :
    DeleteOutcome × List AuthMethod :=
  match get_by_id st amid with
  | none => (.notFound, st)
  | some m =>
    if m.user_id == currentUserId then
      if count_user_auth_methods st currentUserId none ≤ 1 then
        (.lastMethod, st)
      else
        (.ok, (service_delete st amid).2)
    else (.notFound, st)

/- ## Signing-key manager and token service (`hoa/services/jwt_service.py`) -/

/-- Model of the external RSA key-pair generator: deriving the public PEM
from the private PEM is a fixed injective map. -/
def pubOf (privatePem : String) : String := "public:" ++ privatePem

/-- One row of the `jwt_keys` table (`hoa/models/session.py`): algorithm tag,
opaque key id, optional public component, private/secret component (stored
unencrypted, as the source notes), active flag, optional expiry and rotation
time. -/
structure JWTKey where
  algorithm : String
  key_id : String
  public_key : Option String
  private_key_encrypted : String
  is_active : Bool
  expires_at : Option Nat
  rotated_at : Option Nat
deriving DecidableEq

/-- The filter of the active-key query:
`JWTKey.is_active, JWTKey.algorithm == self.algorithm`. -/
def isActiveFor (alg : String) (k : JWTKey) : Bool :=
  k.is_active && k.algorithm == alg

/-- Deactivate the row the active-key `first()` query returned, recording the
rotation time — the `key.is_active = False; key.rotated_at = now` mutation. -/
def deactivateActive (alg : String) (now : Nat) : List JWTKey → List JWTKey
  | [] => []
  | k :: ks =>
    if isActiveFor alg k then { k with is_active := false, rotated_at := some now } :: ks
    else k :: deactivateActive alg now ks

/-- The freshness test on a fetched key:
`key.expires_at is None or key.expires_at > now`. -/
def keyUsable (now : Nat) (k : JWTKey) : Bool :=
  match k.expires_at with
  | none => true
  | some e => now < e

/-- The key row built in `_get_or_create_key`: an RS256 key stores the
public PEM derived from the fresh private PEM; any other algorithm stores a
fresh symmetric secret and no public component. -/
def mkNewKey (alg keyId secret : String) : JWTKey :=
  if alg == "RS256" then
    { algorithm := alg, key_id := keyId, public_key := some (pubOf secret)
      private_key_encrypted := secret, is_active := true
      expires_at := none, rotated_at := none }
  else
    { algorithm := alg, key_id := keyId, public_key := none
      private_key_encrypted := secret, is_active := true
      expires_at := none, rotated_at := none }

/-- `JWTService._get_or_create_key` (jwt_service.py lines 34-101): return the
active unexpired key if there is one; otherwise generate a fresh key (the
fresh key id and key material are passed explicitly), deactivate the stale
active key if one was found, and append the new active row. -/
def getOrCreateKey (alg keyId secret : String) (now : Nat) (st : List JWTKey) :
    JWTKey × List JWTKey :=
  match st.find? (isActiveFor alg) with
  | some key =>
    if keyUsable now key then (key, st)
    else
      let new := mkNewKey alg keyId secret
      (new, deactivateActive alg now st ++ [new])
  | none =>
    let new := mkNewKey alg keyId secret
    (new, st ++ [new])

/-- `JWTService.rotate_keys` (jwt_service.py lines 259-278): deactivate the
current active key regardless of expiry, then force `_get_or_create_key`. -/
def rotateKeys (alg keyId secret : String) (now : Nat) (st : List JWTKey) :
    JWTKey × List JWTKey :=
  getOrCreateKey alg keyId secret now (deactivateActive alg now st)

/-- The decoded JWT claims: subject, expiry, issued-at and the
`access`/`refresh` kind discriminator. -/
structure TokenPayload where
  sub : String
  exp : Nat
  iat : Nat
  typ : String
deriving DecidableEq

/-- A structurally well-formed JWT: the unverified header (optional `kid`
plus the algorithm tag) and the payload, with the signature modelled as the
verification material the correct verification key must present (the
symmetric secret itself for HS256, the signer's public PEM otherwise). -/
structure SignedToken where
  kid : Option String
  alg : String
  payload : TokenPayload
  sig : String
deriving DecidableEq

/-- An arbitrary input string handed to `verify_token`: either not parseable
as a JWT at all (so `jwt.get_unverified_header` raises) or a parsed token. -/
inductive TokenInput where
  | malformed (raw : String)
  | parsed (t : SignedToken)
deriving DecidableEq

/-- What `jwt.encode(payload, key.private_key_encrypted, algorithm)` commits
to: the material a verifier will need.  For HS256 the verifier re-uses the
secret; for an asymmetric algorithm it needs the signer's public PEM. -/
def signMaterial (alg : String) (k : JWTKey) : String :=
  if alg == "HS256" then k.private_key_encrypted else pubOf k.private_key_encrypted

/-- The signature check inside `jwt.decode`: the service hands it
`key.private_key_encrypted` when the algorithm is HS256 and `key.public_key`
otherwise (`None` public material makes the decode raise, hence fail). -/
def sigMatches (alg : String) (k : JWTKey) (t : SignedToken) : Bool :=
  if alg == "HS256" then t.sig == k.private_key_encrypted
  else
    match k.public_key with
    | some pub => t.sig == pub
    | none => false

/-- `JWTService.create_access_token` (jwt_service.py lines 103-139): fetch or
create the active key, build the `sub`/`exp`/`iat`/`type = access` payload and
sign it with the key, embedding the key id in the header.  Returns the token,
its expiry, and the (possibly grown) key table. -/
def create_access_token (alg : String) (userId : String) (expiresDelta : Nat)
    (keyId secret : String) (now : Nat) (st : List JWTKey) :
    SignedToken × Nat × List JWTKey :=
  let kst := getOrCreateKey alg keyId secret now st
  let expiresAt := now + expiresDelta
  ({ kid := some kst.1.key_id, alg := alg
     payload := { sub := userId, exp := expiresAt, iat := now, typ := "access" }
     sig := signMaterial alg kst.1 }, expiresAt, kst.2)

/-- The key lookup inside `verify_token`:
`JWTKey.key_id == key_id, JWTKey.algorithm == self.algorithm`, `first()`. -/
def lookupKeyByKid (alg kid : String) (st : List JWTKey) : Option JWTKey :=
  st.find? (fun k => k.key_id == kid && k.algorithm == alg)

/-- `JWTService.verify_token` (jwt_service.py lines 179-225), a total
function: every raising path of the Python body is caught by the blanket
`except` clauses and becomes `None`.  Read the unverified header; fail on a
missing (or falsy, i.e. empty) key id; look the key up by key id and
algorithm; fail if absent; let `jwt.decode` check the algorithm, the
signature and expiry (expired when `exp ≤ now`); finally fail on a kind
mismatch when a kind was requested. -/
def verify_token (alg : String) (input : TokenInput) (tokenType : Option String)
    (now : Nat) (st : List JWTKey) : Option TokenPayload :=
  match input with
  | .malformed _ => none
  | .parsed t =>
    match t.kid with
    | none => none
    | some kid =>
      if kid == "" then none
      else
        match lookupKeyByKid alg kid st with
        | none => none
        | some key =>
          if t.alg == alg && sigMatches alg key t && now < t.payload.exp then
            match tokenType with
            | some tt => if t.payload.typ == tt then some t.payload else none
            | none => some t.payload
          else none

/-- Count of active rows for an algorithm, the invariant subject. -/
def countActive (alg : String) (st : List JWTKey) : Nat :=
  (st.filter (isActiveFor alg)).length

/-- The state after a forced rotation. -/
def rotateState (alg keyId secret : String) (now : Nat) (st : List JWTKey) : List JWTKey :=
  (rotateKeys alg keyId secret now st).2

/-- A sequence of forced rotations, each with its fresh key id, fresh key
material and timestamp. -/
def applyRotations (alg : String) (rs : List (String × String × Nat)) (st : List JWTKey) :
    List JWTKey :=
  rs.foldl (fun s r => rotateState alg r.1 r.2.1 r.2.2 s) st

/- ## WebAuthn ceremony engine (`hoa/services/webauthn.py`) -/

/-- One entry of the configured relying-party allow-list
(`settings.parsed_rps`): the rp id, a display name, and the set of allowed
origins. -/
structure RPConfig where
  rp_id : String
  rp_name : String
  origins : List String
deriving DecidableEq

/-- `WebAuthnService.get_rp_for` (webauthn.py lines 36-50): the first
allow-list entry whose rp id matches exactly and whose origin set contains
the origin, else `None`. -/
def get_rp_for (allowedRps : List RPConfig) (rpId origin : String) : Option RPConfig :=
  allowedRps.find? (fun rp => rp.rp_id == rpId && rp.origins.contains origin)

/-- Errors surfaced by the ceremony calls: the `InvalidRelyingPartyError`
(`ValueError("Invalid RP/origin combination: ...")`) and the wrapper around a
failure of the external cryptographic verifier. -/
inductive WebAuthnFailure where
  | invalidRP (rpId origin : String)
  | verificationFailed (cause : String)
deriving DecidableEq

/-- What the external `verify_registration_response` returns on success. -/
structure RegVerification where
  credential_id : String
  public_key : String
  sign_count : Int
deriving DecidableEq

/-- What the external `verify_authentication_response` returns on success. -/
structure AuthVerification where
  credential_id : String
  new_sign_count : Int
deriving DecidableEq

/-- `WebAuthnService.begin_registration` (webauthn.py lines 52-143).  The
external `generate_registration_options` call is a parameter `optionsGen`
from the processed exclude list to the options-and-challenge pair; the
base64url decoding of each excluded credential id is the parameter
`decodeCredId`, and entries it rejects are dropped, not fatal. -/
def begin_registration (allowedRps : List RPConfig)
    (decodeCredId : String → Option (List UInt8))
    (optionsGen : RPConfig → List (List UInt8) → String × String)
    (rpId origin : String) (excludeCredentials : Option (List String)) :
    Except WebAuthnFailure (String × String) :=
  match get_rp_for allowedRps rpId origin with
  | none => .error (.invalidRP rpId origin)
  | some rp =>
    let excludedCreds :=
      match excludeCredentials with
      | some ids => ids.filterMap decodeCredId
      | none => []
    .ok (optionsGen rp excludedCreds)

/-- `WebAuthnService.finish_registration` (webauthn.py lines 145-191).  The
external cryptographic `verify_registration_response` is the parameter
`verifier`; any exception it raises is re-raised as the wrapped failure. -/
def finish_registration (allowedRps : List RPConfig)
    (verifier : String → String → String → String → Except String RegVerification)
    (credential expectedChallenge expectedRpId expectedOrigin : String) :
    Except WebAuthnFailure RegVerification :=
  match get_rp_for allowedRps expectedRpId expectedOrigin with
  | none => .error (.invalidRP expectedRpId expectedOrigin)
  | some _ =>
    match verifier credential expectedChallenge expectedRpId expectedOrigin with
    | .error e => .error (.verificationFailed e)
    | .ok v => .ok v

/-- `WebAuthnService.begin_authentication` (webauthn.py lines 193-254),
parameterised like `begin_registration`. -/
def begin_authentication (allowedRps : List RPConfig)
    (decodeCredId : String → Option (List UInt8))
    (optionsGen : RPConfig → List (List UInt8) → String × String)
    (rpId origin : String) (allowCredentials : Option (List String)) :
    Except WebAuthnFailure (String × String) :=
  match get_rp_for allowedRps rpId origin with
  | none => .error (.invalidRP rpId origin)
  | some rp =>
    let allowedCreds :=
      match allowCredentials with
      | some ids => ids.filterMap decodeCredId
      | none => []
    .ok (optionsGen rp allowedCreds)

/-- `WebAuthnService.finish_authentication` (webauthn.py lines 256-307): the
RP/origin check comes first, then the stored public key is base64-decoded
(parameter `decodePublicKey`), then the external verifier runs. -/
def finish_authentication (allowedRps : List RPConfig)
    (decodePublicKey : String → Option (List UInt8))
    (verifier : String → String → String → String → List UInt8 → Int →
      Except String AuthVerification)
    (credential expectedChallenge expectedRpId expectedOrigin : String)
    (credentialPublicKey : String) (currentSignCount : Int) :
    Except WebAuthnFailure AuthVerification :=
  match get_rp_for allowedRps expectedRpId expectedOrigin with
  | none => .error (.invalidRP expectedRpId expectedOrigin)
  | some _ =>
    match decodePublicKey credentialPublicKey with
    | none => .error (.verificationFailed "Invalid public key format")
    | some pubBytes =>
      match verifier credential expectedChallenge expectedRpId expectedOrigin pubBytes
          currentSignCount with
      | .error e => .error (.verificationFailed e)
      | .ok v => .ok v

/- ## General helper lemmas -/

/-- `find?` returns the designated element when it is the only one matching. -/
theorem find?_eq_some_unique {α : Type} {p : α → Bool} {l : List α} {x : α}
    (hmem : x ∈ l) (hpx : p x = true) (huniq : ∀ y ∈ l, p y = true → y = x) :
    l.find? p = some x := by
  induction l with
  | nil => cases hmem
  | cons a l ih =>
    by_cases ha : p a = true
    · rw [List.find?_cons_of_pos _ ha]
      exact congrArg some (huniq a (List.mem_cons_self a l) ha)
    · rw [List.find?_cons_of_neg _ ha]
      have hxl : x ∈ l := by
        rcases List.mem_cons.mp hmem with h | h
        · subst h; exact absurd hpx ha
        · exact h
      exact ih hxl (fun y hy hpy => huniq y (List.mem_cons_of_mem a hy) hpy)

/-- `find?` skips a block of non-matching elements. -/
theorem find?_append_left_none {α : Type} {p : α → Bool} {l1 l2 : List α}
    (h : ∀ x ∈ l1, p x = false) : (l1 ++ l2).find? p = l2.find? p := by
  induction l1 with
  | nil => rfl
  | cons a l ih =>
    have ha : ¬ p a = true := by
      rw [h a (List.mem_cons_self a l)]; exact Bool.false_ne_true
    rw [List.cons_append, List.find?_cons_of_neg _ ha]
    exact ih (fun x hx => h x (List.mem_cons_of_mem a hx))

/-- After replacing the first match by a row that still matches, `find?`
returns the replacement. -/
theorem find?_setFirst_self {p : AuthMethod → Bool} {new : AuthMethod} {l : List AuthMethod}
    (hfound : (l.find? p).isSome = true) (hnew : p new = true) :
    (setFirst p new l).find? p = some new := by
  induction l with
  | nil => simp [List.find?] at hfound
  | cons m ms ih =>
    by_cases hm : p m = true
    · simp only [setFirst, hm, if_true]
      rw [List.find?_cons_of_pos _ hnew]
    · simp only [setFirst, if_neg hm]
      rw [List.find?_cons_of_neg _ hm]
      rw [List.find?_cons_of_neg _ hm] at hfound
      exact ih hfound

/-- Removing one row lowers the enabled-and-approved count by at most one. -/
theorem count_removeFirst_ge (st : List AuthMethod) (q : AuthMethod → Bool) (uid : Nat) :
    count_user_auth_methods st uid none - 1
      ≤ count_user_auth_methods (removeFirst q st) uid none := by
  induction st with
  | nil => simp [removeFirst]
  | cons m ms ih =>
    by_cases hm : q m = true
    · simp only [removeFirst, hm, if_true]
      simp only [count_user_auth_methods, List.filter_cons]
      by_cases he : enabledApprovedFor uid m = true
      · simp [he]
      · have he2 : enabledApprovedFor uid m = false := by
          cases h : enabledApprovedFor uid m with
          | true => exact absurd h he
          | false => rfl
        simp [he2]
    · simp only [removeFirst, if_neg hm]
      simp only [count_user_auth_methods, List.filter_cons] at ih ⊢
      by_cases he : enabledApprovedFor uid m = true
      · simp only [he, if_true, List.length_cons]
        omega
      · simp only [if_neg he]
        exact ih

/- ## Claim C10 — bcrypt 72-byte truncation -/

/-- The truncation applied by both `hash_password` and `verify_password` is
plain `take 72` on the UTF-8 bytes. -/
theorem truncation_is_take72 (b : List UInt8) :
    (if b.length > 72 then b.take 72 else b) = b.take 72 := by
  by_cases hb : b.length > 72
  · simp [hb]
  · simp [hb, List.take_of_length_le (Nat.le_of_not_lt hb)]

/-- Claim C10: two passwords whose UTF-8 encodings agree on their first 72
bytes are interchangeable: `verify_password p2 (hash_password p1 salt)` holds
whenever `p1` and `p2` agree on the first 72 bytes, because both functions
truncate to 72 bytes before applying bcrypt. -/
theorem password_truncation_collision (p1 p2 salt : String)
    (h : (utf8Bytes p1).take 72 = (utf8Bytes p2).take 72) :
    verify_password p2 (hash_password p1 salt) = true := by
  simp only [verify_password, hash_password, truncation_is_take72]
  rw [h]
  simp [bcryptCheckpw, bcryptHashpw]

/-- Witness for C10 at concrete inputs: eighty `a`s versus seventy-two `a`s
followed by eight `b`s — different passwords, same first 72 UTF-8 bytes. -/
theorem password_truncation_collision_witness :
    verify_password (String.mk (List.replicate 72 'a' ++ List.replicate 8 'b'))
      (hash_password (String.mk (List.replicate 80 'a')) "m-odel-salt") = true :=
  password_truncation_collision _ _ _ (by decide)

/- ## Claim C9 — opaque token credentials are exempt from approval -/

/-- Claim C9: `add_token` (and its alias `add_m2m_token`) always creates the
credential with `requires_approval = False`, `approved = True`,
`enabled = True`, whatever the global `require_auth_method_approval` setting
says. -/
theorem token_credentials_exempt_from_approval :
    ∀ (setting : Bool) (newId now userId : Nat) (token description : String)
      (expiresAt : Option Nat) (st : List AuthMethod),
      ((add_token setting newId now userId token description expiresAt st).1.requires_approval
          = false
        ∧ (add_token setting newId now userId token description expiresAt st).1.approved = true
        ∧ (add_token setting newId now userId token description expiresAt st).1.enabled = true)
      ∧ add_m2m_token setting newId now userId token description expiresAt st
          = add_token setting newId now userId token description expiresAt st := by
  intro setting newId now userId token description expiresAt st
  exact ⟨⟨rfl, rfl, rfl⟩, rfl⟩

/- ## Claim C4 — creation-time enabled/approved flags -/

/-- Counterexample to claim C4 as stated: with the approval policy on, a new
password credential is NOT created disabled — the code sets `enabled = True`
unconditionally, so the enabled flag does not equal the negation of
`requires_approval`. -/
theorem credential_creation_flags_counterexample :
    (add_password true 1 0 7 "pw1234567" "s1" none []).1.requires_approval = true
    ∧ (add_password true 1 0 7 "pw1234567" "s1" none []).1.enabled = true
    ∧ ¬ ((add_password true 1 0 7 "pw1234567" "s1" none []).1.enabled
          = !(add_password true 1 0 7 "pw1234567" "s1" none []).1.requires_approval) := by
  refine ⟨rfl, rfl, ?_⟩
  decide

/-- Claim C4 (amended): every credential variant is created with
`enabled = True` unconditionally and `approved = not requires_approval`;
`requires_approval` is the override if given (passkeys), the policy setting
(passwords, OAuth2), or `False` (tokens).  So a credential needing approval
is created enabled-but-unapproved, not disabled-and-unapproved. -/
theorem credential_creation_flags_amended :
    ∀ (setting : Bool) (newId now userId : Nat) (s1 s2 s3 : String) (n : Int)
      (ts : Option (List String)) (ident : Option String) (ovr : Option Bool)
      (expiresAt : Option Nat) (oid1 oid2 oid3 : Option String) (st : List AuthMethod),
      ((add_passkey setting newId now userId s1 s2 s3 n ts ident ovr st).1.enabled = true
        ∧ (add_passkey setting newId now userId s1 s2 s3 n ts ident ovr st).1.approved
            = !(add_passkey setting newId now userId s1 s2 s3 n ts ident ovr st).1.requires_approval
        ∧ (add_passkey setting newId now userId s1 s2 s3 n ts ident ovr st).1.requires_approval
            = ovr.getD setting)
      ∧ ((add_password setting newId now userId s1 s2 ident st).1.enabled = true
        ∧ (add_password setting newId now userId s1 s2 ident st).1.approved
            = !(add_password setting newId now userId s1 s2 ident st).1.requires_approval
        ∧ (add_password setting newId now userId s1 s2 ident st).1.requires_approval = setting)
      ∧ ((add_oauth2 setting newId now userId s1 s2 oid1 oid2 oid3 st).1.enabled = true
        ∧ (add_oauth2 setting newId now userId s1 s2 oid1 oid2 oid3 st).1.approved
            = !(add_oauth2 setting newId now userId s1 s2 oid1 oid2 oid3 st).1.requires_approval
        ∧ (add_oauth2 setting newId now userId s1 s2 oid1 oid2 oid3 st).1.requires_approval
            = setting)
      ∧ ((add_token setting newId now userId s1 s2 expiresAt st).1.enabled = true
        ∧ (add_token setting newId now userId s1 s2 expiresAt st).1.approved
            = !(add_token setting newId now userId s1 s2 expiresAt st).1.requires_approval
        ∧ (add_token setting newId now userId s1 s2 expiresAt st).1.requires_approval = false) := by
  intro setting newId now userId s1 s2 s3 n ts ident ovr expiresAt oid1 oid2 oid3 st
  exact ⟨⟨rfl, rfl, rfl⟩, ⟨rfl, rfl, rfl⟩, ⟨rfl, rfl, rfl⟩, ⟨rfl, rfl, rfl⟩⟩

/- ## Claim C6 — passkey sign count is max(stored, reported) -/

/-- Claim C6: `update_passkey_sign_count` stores exactly
`max(storedCounter, reportedCounter)` — both in the returned row and in the
table — and therefore never lowers the stored counter. -/
theorem sign_count_max_update (st : List AuthMethod) (amid : Nat) (n : Int)
    (pk : AuthMethod) (c : Int)
    (hfind : st.find? (isPasskeyRow amid) = some pk)
    (hc : pk.sign_count = some c) :
    (update_passkey_sign_count st amid n).1
        = SignCountResult.updated { pk with sign_count := some (max c n) }
    ∧ (update_passkey_sign_count st amid n).2.find? (isPasskeyRow amid)
        = some { pk with sign_count := some (max c n) }
    ∧ c ≤ max c n := by
  have hp : isPasskeyRow amid pk = true := List.find?_some hfind
  refine ⟨?_, ?_, le_max_left c n⟩
  · simp [update_passkey_sign_count, hfind, hc]
  · simp only [update_passkey_sign_count, hfind, hc]
    apply find?_setFirst_self
    · rw [hfind]; rfl
    · simpa [isPasskeyRow] using hp

/-- Witness for C6: a single concrete passkey row with stored counter 5 and a
stale reported counter 3 — the stored counter stays 5. -/
theorem sign_count_max_update_witness :
    (update_passkey_sign_count
        [(add_passkey false 1 0 7 "cred" "pub" "rp" 5 none none none []).1] 1 3).1
      = SignCountResult.updated
          { (add_passkey false 1 0 7 "cred" "pub" "rp" 5 none none none []).1 with
            sign_count := some (max 5 3) }
    ∧ (update_passkey_sign_count
        [(add_passkey false 1 0 7 "cred" "pub" "rp" 5 none none none []).1] 1 3).2.find?
          (isPasskeyRow 1)
      = some { (add_passkey false 1 0 7 "cred" "pub" "rp" 5 none none none []).1 with
            sign_count := some (max 5 3) }
    ∧ (5 : Int) ≤ max 5 3 :=
  sign_count_max_update _ 1 3 _ 5 (by decide) rfl

/- ## Claim C8 — pending-approval listing -/

/-- Counterexample to claim C8 as stated: the query applies no `order_by`, so
rows come back in table order, which need not be creation-time ascending.
Two pending passkeys inserted with creation times 5 then 3 are returned in
that insertion order, which is not ascending. -/
theorem pending_approvals_order_counterexample :
    ((get_pending_approvals
        [(add_passkey true 1 5 7 "c1" "p1" "rp" 0 none none none []).1,
         (add_passkey true 2 3 7 "c2" "p2" "rp" 0 none none none []).1] 50).map
      (fun m => m.created_at)) = [5, 3]
    ∧ ¬ List.Pairwise (fun a b : Nat => a ≤ b)
        ((get_pending_approvals
            [(add_passkey true 1 5 7 "c1" "p1" "rp" 0 none none none []).1,
             (add_passkey true 2 3 7 "c2" "p2" "rp" 0 none none none []).1] 50).map
          (fun m => m.created_at)) := by
  constructor
  · rfl
  · decide

/-- Claim C8 (amended): `get_pending_approvals` returns exactly the
credentials with `requires_approval = true` and `approved = false`, in the
underlying table order, capped at `limit`: every returned row is pending, at
most `limit` rows are returned, the result is a sublist of the table, all
pending rows are returned when they number at most `limit`, and the result is
creation-time ascending whenever the table itself is (no explicit ordering is
applied). -/
theorem pending_approvals_amended :
    ∀ (st : List AuthMethod) (limit : Nat),
      (∀ m ∈ get_pending_approvals st limit, m.requires_approval = true ∧ m.approved = false)
      ∧ (get_pending_approvals st limit).length ≤ limit
      ∧ List.Sublist (get_pending_approvals st limit) st
      ∧ ((st.filter (fun m => m.requires_approval && !m.approved)).length ≤ limit →
          get_pending_approvals st limit
            = st.filter (fun m => m.requires_approval && !m.approved))
      ∧ (List.Pairwise (fun a b : AuthMethod => a.created_at ≤ b.created_at) st →
          List.Pairwise (fun a b : AuthMethod => a.created_at ≤ b.created_at)
            (get_pending_approvals st limit)) := by
  intro st limit
  refine ⟨?_, ?_, ?_, ?_, ?_⟩
  · intro m hm
    have hmf : m ∈ st.filter (fun m => m.requires_approval && !m.approved) :=
      List.take_subset _ _ hm
    have hp := List.of_mem_filter hmf
    constructor
    · exact (Bool.and_eq_true _ _ |>.mp hp).1
    · have := (Bool.and_eq_true _ _ |>.mp hp).2
      cases h : m.approved with
      | false => rfl
      | true => rw [h] at this; exact absurd this (by decide)
  · calc (get_pending_approvals st limit).length
        = min limit (st.filter (fun m => m.requires_approval && !m.approved)).length := by
          simp [get_pending_approvals, List.length_take]
      _ ≤ limit := Nat.min_le_left _ _
  · exact List.Sublist.trans (List.take_sublist _ _) (List.filter_sublist st)
  · intro hlen
    exact List.take_of_length_le hlen
  · intro hsorted
    have h1 : List.Pairwise (fun a b : AuthMethod => a.created_at ≤ b.created_at)
        (st.filter (fun m => m.requires_approval && !m.approved)) :=
      List.Pairwise.sublist (List.filter_sublist st) hsorted
    exact List.Pairwise.sublist (List.take_sublist _ _) h1

/-- Witness for C8 (amended) at a concrete one-row table: the hypotheses of
the conditional conjuncts hold, so the full pending list is returned and is
creation-time ascending. -/
theorem pending_approvals_amended_witness :
    get_pending_approvals [(add_passkey true 1 3 7 "c1" "p1" "rp" 0 none none none []).1] 1
      = ([(add_passkey true 1 3 7 "c1" "p1" "rp" 0 none none none []).1].filter
          (fun m => m.requires_approval && !m.approved))
    ∧ List.Pairwise (fun a b : AuthMethod => a.created_at ≤ b.created_at)
        (get_pending_approvals [(add_passkey true 1 3 7 "c1" "p1" "rp" 0 none none none []).1] 1) :=
  ⟨(pending_approvals_amended
      [(add_passkey true 1 3 7 "c1" "p1" "rp" 0 none none none []).1] 1).2.2.2.1 (by decide),
   (pending_approvals_amended
      [(add_passkey true 1 3 7 "c1" "p1" "rp" 0 none none none []).1] 1).2.2.2.2 (by decide)⟩

/- ## Claim C1 — delete floor -/

/-- Counterexample to claim C1 as stated: a principal with exactly two
enabled-and-approved credentials deletes one of them; the count after removal
is 1 ≤ 1, yet the delete succeeds rather than failing with the precondition
error, because the endpoint compares the count computed before removal
against 1. -/
theorem delete_floor_counterexample :
    (delete_my_auth_method
        (add_password false 2 1 7 "pw2pw2pw2" "s2" none
          (add_password false 1 0 7 "pw1pw1pw1" "s1" none []).2).2 7 1).1
      = DeleteOutcome.ok
    ∧ count_user_auth_methods
        (delete_my_auth_method
          (add_password false 2 1 7 "pw2pw2pw2" "s2" none
            (add_password false 1 0 7 "pw1pw1pw1" "s1" none []).2).2 7 1).2 7 none ≤ 1 := by
  constructor
  · rfl
  · decide

/-- Claim C1 (amended): for a credential that exists and belongs to the
caller, the delete fails with the precondition error exactly when the
caller's count of enabled-and-approved credentials computed BEFORE removal is
≤ 1, and succeeds exactly when that count is ≥ 2 — the target's own
enabled/approved flags are never consulted, so a delete never fails merely
because the target is disabled; consequently a successful delete leaves the
count of enabled-and-approved credentials at 1 or more, never zero. -/
theorem delete_floor_amended (st : List AuthMethod) (uid amid : Nat) (m : AuthMethod)
    (hfind : get_by_id st amid = some m) (howner : m.user_id = uid) :
    ((delete_my_auth_method st uid amid).1 = DeleteOutcome.lastMethod
        ↔ count_user_auth_methods st uid none ≤ 1)
    ∧ ((delete_my_auth_method st uid amid).1 = DeleteOutcome.ok
        ↔ 2 ≤ count_user_auth_methods st uid none)
    ∧ ((delete_my_auth_method st uid amid).1 = DeleteOutcome.ok →
        1 ≤ count_user_auth_methods (delete_my_auth_method st uid amid).2 uid none) := by
  have howner2 : (m.user_id == uid) = true := by simp [howner]
  by_cases hc : count_user_auth_methods st uid none ≤ 1
  · have hres : delete_my_auth_method st uid amid = (DeleteOutcome.lastMethod, st) := by
      simp [delete_my_auth_method, hfind, howner2, hc]
    rw [hres]
    exact ⟨⟨fun _ => hc, fun _ => rfl⟩,
      ⟨fun h => (nomatch h), fun h => absurd hc (by omega)⟩,
      fun h => (nomatch h)⟩
  · have hres : delete_my_auth_method st uid amid
        = (DeleteOutcome.ok, (service_delete st amid).2) := by
      simp [delete_my_auth_method, hfind, howner2, hc]
    have hdel : (service_delete st amid).2 = removeFirst (fun x => x.id == amid) st := by
      simp [service_delete, hfind]
    rw [hres]
    refine ⟨⟨fun h => (nomatch h), fun h => absurd h hc⟩,
      ⟨fun _ => by omega, fun _ => rfl⟩, ?_⟩
    intro _
    have := count_removeFirst_ge st (fun x => x.id == amid) uid
    simp only [hdel]
    omega

/-- Witness for C1 (amended) at the concrete two-credential state of the
counterexample: the delete succeeds and the remaining enabled-and-approved
count is at least one. -/
theorem delete_floor_amended_witness :
    1 ≤ count_user_auth_methods
        (delete_my_auth_method
          (add_password false 2 1 7 "pw2pw2pw2" "s2" none
            (add_password false 1 0 7 "pw1pw1pw1" "s1" none []).2).2 7 1).2 7 none :=
  (delete_floor_amended
      (add_password false 2 1 7 "pw2pw2pw2" "s2" none
        (add_password false 1 0 7 "pw1pw1pw1" "s1" none []).2).2 7 1
      (add_password false 1 0 7 "pw1pw1pw1" "s1" none []).1
      (by decide) (by decide)).2.2 (by decide)

/- ## Claim C7 — RP/origin check precedes the verifier -/

/-- Claim C7: whenever the `(rpId, origin)` pair is not in the configured
allow-list (no entry with an exactly matching rp id whose origin set contains
the origin), every ceremony begin or finish call fails with the
invalid-relying-party error, and the result is the same for EVERY external
verifier and options generator — i.e. the cryptographic verifier is never
consulted: the RP/origin check runs first. -/
theorem rp_check_before_verifier (allowedRps : List RPConfig) (rpId origin : String)
    (hmiss : ∀ rp ∈ allowedRps, ¬ (rp.rp_id = rpId ∧ origin ∈ rp.origins)) :
    get_rp_for allowedRps rpId origin = none
    ∧ (∀ dec gen excl,
        begin_registration allowedRps dec gen rpId origin excl
          = .error (.invalidRP rpId origin))
    ∧ (∀ verifier cred chal,
        finish_registration allowedRps verifier cred chal rpId origin
          = .error (.invalidRP rpId origin))
    ∧ (∀ dec gen allow,
        begin_authentication allowedRps dec gen rpId origin allow
          = .error (.invalidRP rpId origin))
    ∧ (∀ dec verifier cred chal pk cnt,
        finish_authentication allowedRps dec verifier cred chal rpId origin pk cnt
          = .error (.invalidRP rpId origin)) := by
  have hnone : get_rp_for allowedRps rpId origin = none := by
    apply List.find?_eq_none.mpr
    intro rp hrp
    intro hp
    rcases Bool.and_eq_true _ _ |>.mp hp with ⟨h1, h2⟩
    exact hmiss rp hrp ⟨by simpa using h1, by simpa using h2⟩
  refine ⟨hnone, ?_, ?_, ?_, ?_⟩
  · intro dec gen excl
    simp [begin_registration, hnone]
  · intro verifier cred chal
    simp [finish_registration, hnone]
  · intro dec gen allow
    simp [begin_authentication, hnone]
  · intro dec verifier cred chal pk cnt
    simp [finish_authentication, hnone]

/-- Witness for C7: the allow-list contains only `example.com` with origin
`https://example.com`; a finish-registration call for rp `evil.com` is
rejected as invalid-RP even with a verifier that accepts everything. -/
theorem rp_check_before_verifier_witness :
    finish_registration [{ rp_id := "example.com", rp_name := "Example"
                           origins := ["https://example.com"] }]
        (fun _ _ _ _ => .ok { credential_id := "cid", public_key := "pk", sign_count := 0 })
        "cred" "chal" "evil.com" "https://example.com"
      = .error (.invalidRP "evil.com" "https://example.com") :=
  (rp_check_before_verifier
      [{ rp_id := "example.com", rp_name := "Example", origins := ["https://example.com"] }]
      "evil.com" "https://example.com" (by decide)).2.2.1
    (fun _ _ _ _ => .ok { credential_id := "cid", public_key := "pk", sign_count := 0 })
    "cred" "chal"

/- ## Claim C5 — token validation is total and collapses all failures -/

/-- Claim C5: `verify_token` is a total function (every raising path of the
Python body is caught and returns `None`): it returns the decoded payload
exactly when the input parses as a JWT carrying a non-empty known key id
whose key verifies the signature under the service algorithm, the token is
unexpired, and the kind matches; and it returns the same `none` in every
failure mode — malformed input, missing/empty key id, unknown key id,
signature or algorithm mismatch, expiry, kind mismatch — so the caller
cannot tell the failure reason apart. -/
theorem verify_token_characterization (alg : String) (input : TokenInput) (tt : String)
    (now : Nat) (st : List JWTKey) (p : TokenPayload) :
    (verify_token alg input (some tt) now st = some p ↔
      ∃ t kid key, input = TokenInput.parsed t ∧ p = t.payload
        ∧ t.kid = some kid ∧ kid ≠ ""
        ∧ lookupKeyByKid alg kid st = some key
        ∧ t.alg = alg ∧ sigMatches alg key t = true
        ∧ now < t.payload.exp ∧ t.payload.typ = tt)
    ∧ (∀ s, verify_token alg (.malformed s) (some tt) now st = none)
    ∧ (∀ t : SignedToken, (t.kid = none ∨ t.kid = some "") →
        verify_token alg (.parsed t) (some tt) now st = none)
    ∧ (∀ t kid, t.kid = some kid → lookupKeyByKid alg kid st = none →
        verify_token alg (.parsed t) (some tt) now st = none)
    ∧ (∀ t kid key, t.kid = some kid → lookupKeyByKid alg kid st = some key →
        sigMatches alg key t = false →
        verify_token alg (.parsed t) (some tt) now st = none)
    ∧ (∀ t kid key, t.kid = some kid → lookupKeyByKid alg kid st = some key →
        t.payload.exp ≤ now →
        verify_token alg (.parsed t) (some tt) now st = none)
    ∧ (∀ t kid key, t.kid = some kid → lookupKeyByKid alg kid st = some key →
        t.payload.typ ≠ tt →
        verify_token alg (.parsed t) (some tt) now st = none) := by
  refine ⟨⟨?_, ?_⟩, ?_, ?_, ?_, ?_, ?_, ?_⟩
  · -- forward direction of the characterisation
    intro h
    cases input with
    | malformed s => simp [verify_token] at h
    | parsed t =>
      cases hkid : t.kid with
      | none => simp [verify_token, hkid] at h
      | some kid =>
        by_cases hne : kid = ""
        · subst hne
          simp [verify_token, hkid] at h
        · have hne2 : (kid == "") = false := by simp [hne]
          cases hlook : lookupKeyByKid alg kid st with
          | none => simp [verify_token, hkid, hne2, hlook] at h
          | some key =>
            simp only [verify_token, hkid, hne2, Bool.false_eq_true, if_false, hlook] at h
            by_cases hcond : (t.alg == alg && sigMatches alg key t
                && decide (now < t.payload.exp)) = true
            · rw [if_pos hcond] at h
              rcases Bool.and_eq_true _ _ |>.mp hcond with ⟨hcond1, hexp⟩
              rcases Bool.and_eq_true _ _ |>.mp hcond1 with ⟨halg, hsig⟩
              by_cases htyp : (t.payload.typ == tt) = true
              · rw [if_pos htyp] at h
                refine ⟨t, kid, key, rfl, by simpa using h.symm, hkid, hne, hlook,
                  by simpa using halg, hsig, by simpa using hexp, by simpa using htyp⟩
              · rw [if_neg htyp] at h
                exact absurd h (by simp)
            · rw [if_neg hcond] at h
              exact absurd h (by simp)
  · -- reverse direction
    rintro ⟨t, kid, key, rfl, rfl, hkid, hne, hlook, halg, hsig, hexp, htyp⟩
    have hne2 : (kid == "") = false := by simp [hne]
    simp [verify_token, hkid, hne2, hlook, halg, hsig, hexp, htyp]
  · intro s; rfl
  · intro t hk
    rcases hk with hk | hk <;> simp [verify_token, hk]
  · intro t kid hkid hlook
    by_cases hne : kid = ""
    · subst hne; simp [verify_token, hkid]
    · have hne2 : (kid == "") = false := by simp [hne]
      simp [verify_token, hkid, hne2, hlook]
  · intro t kid key hkid hlook hsig
    by_cases hne : kid = ""
    · subst hne; simp [verify_token, hkid]
    · have hne2 : (kid == "") = false := by simp [hne]
      simp [verify_token, hkid, hne2, hlook, hsig]
  · intro t kid key hkid hlook hexp
    by_cases hne : kid = ""
    · subst hne; simp [verify_token, hkid]
    · have hne2 : (kid == "") = false := by simp [hne]
      have hexp2 : ¬ (now < t.payload.exp) := by omega
      simp [verify_token, hkid, hne2, hlook, hexp2]
  · intro t kid key hkid hlook htyp
    by_cases hne : kid = ""
    · subst hne; simp [verify_token, hkid]
    · have hne2 : (kid == "") = false := by simp [hne]
      simp [verify_token, hkid, hne2, hlook, htyp]

/-- Witness for C5: a key table with one HS256 key; a well-formed token
signed by it validates to its payload, and a malformed string validates to
`none`. -/
theorem verify_token_characterization_witness :
    verify_token "HS256"
        (.parsed { kid := some "k1", alg := "HS256"
                   payload := { sub := "alice", exp := 100, iat := 0, typ := "access" }
                   sig := "secret1" })
        (some "access") 50
        [{ algorithm := "HS256", key_id := "k1", public_key := none
           private_key_encrypted := "secret1", is_active := true
           expires_at := none, rotated_at := none }]
      = some { sub := "alice", exp := 100, iat := 0, typ := "access" }
    ∧ verify_token "HS256" (.malformed "not-a-jwt") (some "access") 50
        [{ algorithm := "HS256", key_id := "k1", public_key := none
           private_key_encrypted := "secret1", is_active := true
           expires_at := none, rotated_at := none }]
      = none := by
  constructor
  · exact ((verify_token_characterization "HS256"
      (.parsed { kid := some "k1", alg := "HS256"
                 payload := { sub := "alice", exp := 100, iat := 0, typ := "access" }
                 sig := "secret1" })
      "access" 50
      [{ algorithm := "HS256", key_id := "k1", public_key := none
         private_key_encrypted := "secret1", is_active := true
         expires_at := none, rotated_at := none }]
      { sub := "alice", exp := 100, iat := 0, typ := "access" }).1.mpr
      ⟨_, "k1",
        { algorithm := "HS256", key_id := "k1", public_key := none
          private_key_encrypted := "secret1", is_active := true
          expires_at := none, rotated_at := none },
        rfl, rfl, rfl, by decide, by decide, rfl, by decide, by decide, rfl⟩)
  · exact (verify_token_characterization "HS256" (.malformed "not-a-jwt") "access" 50
      [{ algorithm := "HS256", key_id := "k1", public_key := none
         private_key_encrypted := "secret1", is_active := true
         expires_at := none, rotated_at := none }]
      { sub := "alice", exp := 100, iat := 0, typ := "access" }).2.1 "not-a-jwt"

/- ## Signing-key lemmas -/

/-- The key ids of a key table, unique by the store's uniqueness constraint. -/
def keyIds (st : List JWTKey) : List String := st.map (fun k => k.key_id)

/-- The rotation-invariant material of a key row: everything except the
active flag and the rotation timestamp. -/
def matOf (k : JWTKey) : String × String × Option String × String :=
  (k.key_id, k.algorithm, k.public_key, k.private_key_encrypted)

/-- Well-formedness of a key table: key ids are unique (the store enforces
uniqueness on `key_id`) and non-empty, and every non-HS256 row carries the
public component derived from its private component (as `_get_or_create_key`
creates them). -/
def StateOk (st : List JWTKey) : Prop :=
  (keyIds st).Nodup
  ∧ ∀ k ∈ st, k.key_id ≠ ""
      ∧ (k.algorithm ≠ "HS256" → k.public_key = some (pubOf k.private_key_encrypted))

theorem mkNewKey_key_id (alg i s : String) : (mkNewKey alg i s).key_id = i := by
  unfold mkNewKey; split <;> rfl

theorem mkNewKey_algorithm (alg i s : String) : (mkNewKey alg i s).algorithm = alg := by
  unfold mkNewKey; split <;> rfl

theorem mkNewKey_is_active (alg i s : String) : (mkNewKey alg i s).is_active = true := by
  unfold mkNewKey; split <;> rfl

theorem mkNewKey_private (alg i s : String) : (mkNewKey alg i s).private_key_encrypted = s := by
  unfold mkNewKey; split <;> rfl

theorem mkNewKey_public_rs (alg i s : String) (h : alg = "RS256") :
    (mkNewKey alg i s).public_key = some (pubOf s) := by
  subst h; rfl

/-- `find?` ignores a final element that does not match. -/
theorem find?_append_single_not {α : Type} {p : α → Bool} {l : List α} {x : α}
    (hx : ¬ p x = true) : (l ++ [x]).find? p = l.find? p := by
  induction l with
  | nil =>
    rw [List.nil_append, List.find?_cons_of_neg _ hx]
  | cons a l ih =>
    by_cases ha : p a = true
    · rw [List.cons_append, List.find?_cons_of_pos _ ha, List.find?_cons_of_pos _ ha]
    · rw [List.cons_append, List.find?_cons_of_neg _ ha, List.find?_cons_of_neg _ ha]
      exact ih

/-- Deactivation does not change the key ids of the table. -/
theorem keyIds_deactivate (alg : String) (now : Nat) (st : List JWTKey) :
    keyIds (deactivateActive alg now st) = keyIds st := by
  induction st with
  | nil => rfl
  | cons a l ih =>
    by_cases ha : isActiveFor alg a = true
    · simp only [deactivateActive, if_pos ha]
      rfl
    · simp only [deactivateActive, if_neg ha]
      simp only [keyIds, List.map_cons] at ih ⊢
      rw [ih]

/-- Deactivation preserves the material found under any key id lookup. -/
theorem lookup_matOf_deactivate (alg2 : String) (now : Nat) (alg kid : String)
    (st : List JWTKey) :
    (lookupKeyByKid alg kid (deactivateActive alg2 now st)).map matOf
      = (lookupKeyByKid alg kid st).map matOf := by
  induction st with
  | nil => rfl
  | cons a l ih =>
    by_cases ha : isActiveFor alg2 a = true
    · simp only [deactivateActive, if_pos ha]
      cases hp : (a.key_id == kid && a.algorithm == alg) with
      | true =>
        simp only [lookupKeyByKid, List.find?_cons]
        simp [hp, matOf]
      | false =>
        simp only [lookupKeyByKid, List.find?_cons]
        simp [hp]
    · simp only [deactivateActive, if_neg ha]
      cases hp : (a.key_id == kid && a.algorithm == alg) with
      | true =>
        simp only [lookupKeyByKid, List.find?_cons]
        simp [hp]
      | false =>
        simp only [lookupKeyByKid, List.find?_cons]
        simp only [hp]
        exact ih

/-- A lookup under a key id other than the fresh one is unaffected by
`_get_or_create_key`. -/
theorem lookup_matOf_getOrCreate (alg2 keyId secret : String) (now : Nat) (st : List JWTKey)
    (alg kid : String) (hne : kid ≠ keyId) :
    (lookupKeyByKid alg kid (getOrCreateKey alg2 keyId secret now st).2).map matOf
      = (lookupKeyByKid alg kid st).map matOf := by
  have hx : ¬ ((mkNewKey alg2 keyId secret).key_id == kid
      && (mkNewKey alg2 keyId secret).algorithm == alg) = true := by
    have hki : keyId ≠ kid := fun h => hne h.symm
    rw [mkNewKey_key_id]
    simp [hki]
  cases hfind : st.find? (isActiveFor alg2) with
  | none =>
    have hres : (getOrCreateKey alg2 keyId secret now st).2
        = st ++ [mkNewKey alg2 keyId secret] := by
      simp [getOrCreateKey, hfind]
    rw [hres]
    unfold lookupKeyByKid
    rw [@find?_append_single_not _ (fun k : JWTKey => k.key_id == kid && k.algorithm == alg) _ _ hx]
  | some key =>
    by_cases husable : keyUsable now key = true
    · have hres : (getOrCreateKey alg2 keyId secret now st).2 = st := by
        simp [getOrCreateKey, hfind, husable]
      rw [hres]
    · rw [Bool.not_eq_true] at husable
      have hres : (getOrCreateKey alg2 keyId secret now st).2
          = deactivateActive alg2 now st ++ [mkNewKey alg2 keyId secret] := by
        simp [getOrCreateKey, hfind, husable]
      rw [hres]
      unfold lookupKeyByKid
      rw [@find?_append_single_not _ (fun k : JWTKey => k.key_id == kid && k.algorithm == alg) _ _ hx]
      exact lookup_matOf_deactivate alg2 now alg kid st

/-- A lookup under a key id other than the fresh one is unaffected by a
forced rotation: the old row keeps its material, only its active flag and
rotation time change. -/
theorem lookup_matOf_rotate (alg2 keyId secret : String) (now : Nat) (st : List JWTKey)
    (alg kid : String) (hne : kid ≠ keyId) :
    (lookupKeyByKid alg kid (rotateState alg2 keyId secret now st)).map matOf
      = (lookupKeyByKid alg kid st).map matOf := by
  unfold rotateState rotateKeys
  rw [lookup_matOf_getOrCreate alg2 keyId secret now _ alg kid hne]
  exact lookup_matOf_deactivate alg2 now alg kid st

/-- A lookup survives any sequence of rotations with fresh key ids. -/
theorem lookup_matOf_applyRotations (alg2 : String) (rs : List (String × String × Nat))
    (st : List JWTKey) (alg kid : String) (hne : ∀ r ∈ rs, kid ≠ r.1) :
    (lookupKeyByKid alg kid (applyRotations alg2 rs st)).map matOf
      = (lookupKeyByKid alg kid st).map matOf := by
  induction rs generalizing st with
  | nil => rfl
  | cons r rs ih =>
    have h1 : applyRotations alg2 (r :: rs) st
        = applyRotations alg2 rs (rotateState alg2 r.1 r.2.1 r.2.2 st) := rfl
    rw [h1, ih _ (fun x hx => hne x (List.mem_cons_of_mem r hx))]
    exact lookup_matOf_rotate alg2 r.1 r.2.1 r.2.2 st alg kid (hne r (List.mem_cons_self r rs))

/-- Active-key counts add across table concatenation. -/
theorem countActive_append (alg : String) (l1 l2 : List JWTKey) :
    countActive alg (l1 ++ l2) = countActive alg l1 + countActive alg l2 := by
  simp [countActive, List.filter_append]

/-- No active key found means the active count is zero. -/
theorem countActive_eq_zero_of_none (alg : String) (st : List JWTKey)
    (hfind : st.find? (isActiveFor alg) = none) : countActive alg st = 0 := by
  have h := List.find?_eq_none.mp hfind
  unfold countActive
  rw [List.length_eq_zero]
  exact List.filter_eq_nil_iff.mpr h

/-- An active key found means the active count is positive. -/
theorem countActive_pos_of_found (alg : String) (st : List JWTKey) (k : JWTKey)
    (hfind : st.find? (isActiveFor alg) = some k) : 1 ≤ countActive alg st := by
  have hmem : k ∈ st.filter (isActiveFor alg) :=
    List.mem_filter.mpr ⟨List.mem_of_find?_eq_some hfind, List.find?_some hfind⟩
  exact List.length_pos.mpr (List.ne_nil_of_mem hmem)

/-- Deactivating the found active key lowers the active count by exactly 1. -/
theorem countActive_deactivate_of_found (alg : String) (now : Nat) (st : List JWTKey)
    (k : JWTKey) (hfind : st.find? (isActiveFor alg) = some k) :
    countActive alg st = countActive alg (deactivateActive alg now st) + 1 := by
  induction st with
  | nil => simp [List.find?] at hfind
  | cons a l ih =>
    by_cases ha : isActiveFor alg a = true
    · simp only [deactivateActive, if_pos ha]
      have hna : isActiveFor alg { a with is_active := false, rotated_at := some now }
          = false := by
        simp [isActiveFor]
      simp [countActive, List.filter_cons, ha, hna]
    · simp only [deactivateActive, if_neg ha]
      rw [List.find?_cons_of_neg _ ha] at hfind
      have hna : isActiveFor alg a = false := by
        cases h : isActiveFor alg a with
        | true => exact absurd h ha
        | false => rfl
      simp only [countActive, List.filter_cons, hna, Bool.false_eq_true, if_false]
      exact ih hfind

/-- Deactivation never increases the active count. -/
theorem countActive_deactivate_le (alg : String) (now : Nat) (st : List JWTKey) :
    countActive alg (deactivateActive alg now st) ≤ countActive alg st := by
  induction st with
  | nil => exact Nat.le_refl 0
  | cons a l ih =>
    by_cases ha : isActiveFor alg a = true
    · simp only [deactivateActive, if_pos ha]
      have hna : isActiveFor alg { a with is_active := false, rotated_at := some now }
          = false := by
        simp [isActiveFor]
      simp [countActive, List.filter_cons, ha, hna]
    · simp only [deactivateActive, if_neg ha]
      have hna : isActiveFor alg a = false := by
        cases h : isActiveFor alg a with
        | true => exact absurd h ha
        | false => rfl
      simp only [countActive, List.filter_cons, hna, Bool.false_eq_true, if_false]
      exact ih

/-- The fresh key row is active for its own algorithm. -/
theorem countActive_singleton_new (alg i s : String) :
    countActive alg [mkNewKey alg i s] = 1 := by
  have h : isActiveFor alg (mkNewKey alg i s) = true := by
    simp [isActiveFor, mkNewKey_is_active, mkNewKey_algorithm]
  simp [countActive, List.filter_cons, h]

/-- A token signed with a key verifies against that key, provided a non-HS256
key carries its derived public component. -/
theorem sigMatches_of_signMaterial (alg : String) (key : JWTKey) (t : SignedToken)
    (hsig : t.sig = signMaterial alg key)
    (hpub : alg ≠ "HS256" → key.public_key = some (pubOf key.private_key_encrypted)) :
    sigMatches alg key t = true := by
  by_cases h : alg = "HS256"
  · subst h
    simp only [signMaterial, if_pos] at hsig
    simp [sigMatches, hsig]
  · have hb : (alg == "HS256") = false := by simp [h]
    simp only [signMaterial, hb, Bool.false_eq_true, if_false] at hsig
    simp [sigMatches, hb, hpub h, hsig]

/-- Signature checking only depends on the rotation-invariant material. -/
theorem sigMatches_matOf {k1 k2 : JWTKey} (h : matOf k1 = matOf k2) (alg : String)
    (t : SignedToken) : sigMatches alg k1 t = sigMatches alg k2 t := by
  simp only [matOf, Prod.mk.injEq] at h
  simp [sigMatches, h.2.2.1, h.2.2.2]

/-- Rotation-invariant material determines the key id. -/
theorem matOf_key_id {k1 k2 : JWTKey} (h : matOf k1 = matOf k2) : k1.key_id = k2.key_id := by
  simp only [matOf, Prod.mk.injEq] at h
  exact h.1

/-- Successful verification, spelled out: a parsed token with a non-empty key
id whose lookup succeeds, whose algorithm tag and signature check out and
which is unexpired and of the requested kind, validates to its payload. -/
theorem verify_parsed_ok (alg : String) (t : SignedToken) (kid : String) (key : JWTKey)
    (tt : String) (now : Nat) (st : List JWTKey)
    (hkid : t.kid = some kid) (hne : kid ≠ "")
    (hlook : lookupKeyByKid alg kid st = some key)
    (halg : t.alg = alg) (hsig : sigMatches alg key t = true)
    (hexp : now < t.payload.exp) (htyp : t.payload.typ = tt) :
    verify_token alg (.parsed t) (some tt) now st = some t.payload := by
  have hne2 : (kid == "") = false := by simp [hne]
  simp [verify_token, hkid, hne2, hlook, halg, hsig, hexp, htyp]

/-- What `_get_or_create_key` guarantees about the key it returns, over a
well-formed table with a genuinely fresh key id: the key has a usable
non-empty id, the service algorithm, is found again by its id in the updated
table, carries derived public material when asymmetric, and its id is either
an existing id (reuse) or the fresh one (creation). -/
theorem getOrCreateKey_props (alg keyId secret : String) (now : Nat) (st : List JWTKey)
    (halg : alg = "HS256" ∨ alg = "RS256") (hok : StateOk st)
    (hfresh : keyId ∉ keyIds st) (hne : keyId ≠ "") :
    (getOrCreateKey alg keyId secret now st).1.key_id ≠ ""
    ∧ (getOrCreateKey alg keyId secret now st).1.algorithm = alg
    ∧ lookupKeyByKid alg (getOrCreateKey alg keyId secret now st).1.key_id
        (getOrCreateKey alg keyId secret now st).2
      = some (getOrCreateKey alg keyId secret now st).1
    ∧ (alg ≠ "HS256" →
        (getOrCreateKey alg keyId secret now st).1.public_key
          = some (pubOf (getOrCreateKey alg keyId secret now st).1.private_key_encrypted))
    ∧ ((getOrCreateKey alg keyId secret now st).1.key_id ∈ keyIds st
        ∨ (getOrCreateKey alg keyId secret now st).1.key_id = keyId) := by
  cases hfind : st.find? (isActiveFor alg) with
  | some key =>
    have hmem : key ∈ st := List.mem_of_find?_eq_some hfind
    have hp : isActiveFor alg key = true := List.find?_some hfind
    have hkalg : key.algorithm = alg := by
      simp [isActiveFor] at hp
      exact hp.2
    by_cases husable : keyUsable now key = true
    · have hres : getOrCreateKey alg keyId secret now st = (key, st) := by
        simp [getOrCreateKey, hfind, husable]
      rw [hres]
      refine ⟨(hok.2 key hmem).1, hkalg, ?_, ?_, Or.inl (List.mem_map_of_mem _ hmem)⟩
      · apply find?_eq_some_unique hmem
        · simp [hkalg]
        · intro y hy hpy
          have hyid : y.key_id = key.key_id := by
            have h1 := (Bool.and_eq_true _ _).mp hpy |>.1
            simpa using h1
          have hnodup : (st.map (fun k => k.key_id)).Nodup := by
            simpa [keyIds] using hok.1
          exact List.inj_on_of_nodup_map hnodup hy hmem hyid
      · intro hAlgNe
        exact (hok.2 key hmem).2 (by rw [hkalg]; exact hAlgNe)
    · rw [Bool.not_eq_true] at husable
      have hres : getOrCreateKey alg keyId secret now st
          = (mkNewKey alg keyId secret,
             deactivateActive alg now st ++ [mkNewKey alg keyId secret]) := by
        simp [getOrCreateKey, hfind, husable]
      rw [hres]
      refine ⟨by rw [mkNewKey_key_id]; exact hne, mkNewKey_algorithm alg keyId secret, ?_, ?_,
        Or.inr (mkNewKey_key_id alg keyId secret)⟩
      · rw [mkNewKey_key_id]
        unfold lookupKeyByKid
        have hpre : ∀ x ∈ deactivateActive alg now st,
            ¬ (x.key_id == keyId && x.algorithm == alg) = true := by
          intro x hx hcontra
          have hxid : x.key_id = keyId := by
            have h1 := (Bool.and_eq_true _ _).mp hcontra |>.1
            simpa using h1
          have : x.key_id ∈ keyIds (deactivateActive alg now st) :=
            List.mem_map_of_mem _ hx
          rw [keyIds_deactivate, hxid] at this
          exact hfresh this
        rw [find?_append_left_none (fun x hx => by
          cases h : (x.key_id == keyId && x.algorithm == alg) with
          | true => exact absurd h (hpre x hx)
          | false => rfl)]
        rw [List.find?_cons_of_pos]
        simp [mkNewKey_key_id, mkNewKey_algorithm]
      · intro hAlgNe
        rcases halg with h | h
        · exact absurd h hAlgNe
        · rw [mkNewKey_public_rs alg keyId secret h, mkNewKey_private]
  | none =>
    have hres : getOrCreateKey alg keyId secret now st
        = (mkNewKey alg keyId secret, st ++ [mkNewKey alg keyId secret]) := by
      simp [getOrCreateKey, hfind]
    rw [hres]
    refine ⟨by rw [mkNewKey_key_id]; exact hne, mkNewKey_algorithm alg keyId secret, ?_, ?_,
      Or.inr (mkNewKey_key_id alg keyId secret)⟩
    · rw [mkNewKey_key_id]
      unfold lookupKeyByKid
      have hpre : ∀ x ∈ st, ¬ (x.key_id == keyId && x.algorithm == alg) = true := by
        intro x hx hcontra
        have hxid : x.key_id = keyId := by
          have h1 := (Bool.and_eq_true _ _).mp hcontra |>.1
          simpa using h1
        have : x.key_id ∈ keyIds st := List.mem_map_of_mem _ hx
        rw [hxid] at this
        exact hfresh this
      rw [find?_append_left_none (fun x hx => by
        cases h : (x.key_id == keyId && x.algorithm == alg) with
        | true => exact absurd h (hpre x hx)
        | false => rfl)]
      rw [List.find?_cons_of_pos]
      simp [mkNewKey_key_id, mkNewKey_algorithm]
    · intro hAlgNe
      rcases halg with h | h
      · exact absurd h hAlgNe
      · rw [mkNewKey_public_rs alg keyId secret h, mkNewKey_private]

/-- What issuing an access token guarantees: the token's header names a key
that the updated table still resolves, the signature checks out against that
key, and the payload carries the subject, expiry `now + delta`, and kind
`access`. -/
theorem create_access_token_props (alg userId : String) (delta : Nat) (keyId secret : String)
    (now : Nat) (st : List JWTKey)
    (halg : alg = "HS256" ∨ alg = "RS256") (hok : StateOk st)
    (hfresh : keyId ∉ keyIds st) (hne : keyId ≠ "") :
    ∃ key : JWTKey,
      (create_access_token alg userId delta keyId secret now st).1.kid = some key.key_id
      ∧ key.key_id ≠ ""
      ∧ lookupKeyByKid alg key.key_id
          (create_access_token alg userId delta keyId secret now st).2.2 = some key
      ∧ (create_access_token alg userId delta keyId secret now st).1.alg = alg
      ∧ sigMatches alg key (create_access_token alg userId delta keyId secret now st).1 = true
      ∧ (create_access_token alg userId delta keyId secret now st).1.payload
          = { sub := userId, exp := now + delta, iat := now, typ := "access" }
      ∧ (key.key_id ∈ keyIds st ∨ key.key_id = keyId) := by
  obtain ⟨h1, h2, h3, h4, h5⟩ := getOrCreateKey_props alg keyId secret now st halg hok hfresh hne
  exact ⟨(getOrCreateKey alg keyId secret now st).1, rfl, h1, h3, rfl,
    sigMatches_of_signMaterial alg _ _ rfl h4, rfl, h5⟩

/- ## Claim C3 — access-token round trip -/

/-- Claim C3: issuing an access token for a principal and validating it with
expected kind `access` before its expiry succeeds and returns the token's
payload, whose subject is that principal.  Hypotheses: the configured
algorithm is one of the two the service supports, the key table is
well-formed (unique non-empty key ids, asymmetric rows carry their public
component), the key id drawn for a lazily created key is fresh and
non-empty, and validation happens before the expiry the issuance returned. -/
theorem access_token_roundtrip (alg userId : String) (delta : Nat) (keyId secret : String)
    (now tv : Nat) (st : List JWTKey)
    (halg : alg = "HS256" ∨ alg = "RS256") (hok : StateOk st)
    (hfresh : keyId ∉ keyIds st) (hkne : keyId ≠ "")
    (htv : tv < (create_access_token alg userId delta keyId secret now st).2.1) :
    verify_token alg (.parsed (create_access_token alg userId delta keyId secret now st).1)
        (some "access") tv (create_access_token alg userId delta keyId secret now st).2.2
      = some (create_access_token alg userId delta keyId secret now st).1.payload
    ∧ (create_access_token alg userId delta keyId secret now st).1.payload.sub = userId := by
  obtain ⟨key, hkid, hkne2, hlook, htalg, hsig, hpayload, _⟩ :=
    create_access_token_props alg userId delta keyId secret now st halg hok hfresh hkne
  constructor
  · refine verify_parsed_ok alg _ key.key_id key "access" tv _ hkid hkne2 hlook htalg hsig ?_ ?_
    · rw [hpayload]
      exact htv
    · rw [hpayload]
  · rw [hpayload]

/-- Witness for C3: a fresh HS256 deployment (empty key table), principal
`alice`, a 100-unit ttl, validation at time 50. -/
theorem access_token_roundtrip_witness :
    verify_token "HS256" (.parsed (create_access_token "HS256" "alice" 100 "k1" "s1" 0 []).1)
        (some "access") 50 (create_access_token "HS256" "alice" 100 "k1" "s1" 0 []).2.2
      = some (create_access_token "HS256" "alice" 100 "k1" "s1" 0 []).1.payload
    ∧ (create_access_token "HS256" "alice" 100 "k1" "s1" 0 []).1.payload.sub = "alice" :=
  access_token_roundtrip "HS256" "alice" 100 "k1" "s1" 0 50 [] (Or.inl rfl)
    ⟨by simp [keyIds], by simp⟩ (by simp [keyIds]) (by decide) (by decide)

/-- `_get_or_create_key` preserves "at most one active key per algorithm". -/
theorem countActive_getOrCreate_le (alg keyId secret : String) (now : Nat) (st : List JWTKey)
    (h : countActive alg st ≤ 1) :
    countActive alg (getOrCreateKey alg keyId secret now st).2 ≤ 1 := by
  cases hfind : st.find? (isActiveFor alg) with
  | none =>
    have hres : (getOrCreateKey alg keyId secret now st).2
        = st ++ [mkNewKey alg keyId secret] := by
      simp [getOrCreateKey, hfind]
    rw [hres, countActive_append, countActive_eq_zero_of_none alg st hfind,
      countActive_singleton_new]
  | some key =>
    by_cases husable : keyUsable now key = true
    · have hres : (getOrCreateKey alg keyId secret now st).2 = st := by
        simp [getOrCreateKey, hfind, husable]
      rw [hres]
      exact h
    · rw [Bool.not_eq_true] at husable
      have hres : (getOrCreateKey alg keyId secret now st).2
          = deactivateActive alg now st ++ [mkNewKey alg keyId secret] := by
        simp [getOrCreateKey, hfind, husable]
      rw [hres, countActive_append, countActive_singleton_new]
      have hd := countActive_deactivate_of_found alg now st key hfind
      omega

/-- `rotate_keys` preserves "at most one active key per algorithm". -/
theorem countActive_rotate_le (alg keyId secret : String) (now : Nat) (st : List JWTKey)
    (h : countActive alg st ≤ 1) :
    countActive alg (rotateState alg keyId secret now st) ≤ 1 := by
  unfold rotateState rotateKeys
  exact countActive_getOrCreate_le alg keyId secret now _
    (Nat.le_trans (countActive_deactivate_le alg now st) h)

/- ## Claim C2 — key rotation invariant and token survival -/

/-- Claim C2: at most one signing key per algorithm is active at any time and
both `_get_or_create_key` and `rotate_keys` preserve this; a token issued
under an earlier key still validates after any sequence of forced rotations
with fresh key ids, because validation resolves the key by the id in the
token header regardless of the active flag; and in particular rotating the
HS256 key twice starting from one lazily created key leaves three key rows
with exactly one active, with a token issued before the rotations still
validating. -/
theorem signing_key_rotation_claim :
    (∀ (alg keyId secret : String) (now : Nat) (st : List JWTKey),
        countActive alg st ≤ 1 →
        countActive alg (getOrCreateKey alg keyId secret now st).2 ≤ 1)
    ∧ (∀ (alg keyId secret : String) (now : Nat) (st : List JWTKey),
        countActive alg st ≤ 1 →
        countActive alg (rotateState alg keyId secret now st) ≤ 1)
    ∧ (∀ (alg userId : String) (delta : Nat) (keyId secret : String) (now : Nat)
        (st : List JWTKey) (rs : List (String × String × Nat)) (tv : Nat),
        (alg = "HS256" ∨ alg = "RS256") → StateOk st →
        keyId ∉ keyIds st → keyId ≠ "" →
        (∀ r ∈ rs, r.1 ∉ keyIds st ∧ r.1 ≠ keyId) →
        tv < now + delta →
        verify_token alg
            (.parsed (create_access_token alg userId delta keyId secret now st).1)
            (some "access") tv
            (applyRotations alg rs
              (create_access_token alg userId delta keyId secret now st).2.2)
          = some (create_access_token alg userId delta keyId secret now st).1.payload
        ∧ (create_access_token alg userId delta keyId secret now st).1.payload.sub = userId)
    ∧ ((applyRotations "HS256" [("k2", "s2", 1), ("k3", "s3", 2)]
          (create_access_token "HS256" "alice" 100 "k1" "s1" 0 []).2.2).length = 3
      ∧ countActive "HS256" (applyRotations "HS256" [("k2", "s2", 1), ("k3", "s3", 2)]
          (create_access_token "HS256" "alice" 100 "k1" "s1" 0 []).2.2) = 1
      ∧ verify_token "HS256"
            (.parsed (create_access_token "HS256" "alice" 100 "k1" "s1" 0 []).1)
            (some "access") 50
            (applyRotations "HS256" [("k2", "s2", 1), ("k3", "s3", 2)]
              (create_access_token "HS256" "alice" 100 "k1" "s1" 0 []).2.2)
          = some (create_access_token "HS256" "alice" 100 "k1" "s1" 0 []).1.payload
      ∧ (create_access_token "HS256" "alice" 100 "k1" "s1" 0 []).1.payload.sub = "alice") := by
  refine ⟨countActive_getOrCreate_le, countActive_rotate_le, ?_, ?_⟩
  · intro alg userId delta keyId secret now st rs tv halg hok hfresh hkne hrs htv
    obtain ⟨key, hkid, hkne2, hlook, htalg, hsig, hpayload, hwhere⟩ :=
      create_access_token_props alg userId delta keyId secret now st halg hok hfresh hkne
    have hrot : ∀ r ∈ rs, key.key_id ≠ r.1 := by
      intro r hr
      rcases hwhere with hmem | heq
      · exact fun hcontra => (hrs r hr).1 (hcontra ▸ hmem)
      · exact fun hcontra => (hrs r hr).2 (hcontra ▸ heq)
    have hpres := lookup_matOf_applyRotations alg rs
      ((create_access_token alg userId delta keyId secret now st).2.2) alg key.key_id hrot
    rw [hlook] at hpres
    cases hlz : lookupKeyByKid alg key.key_id
        (applyRotations alg rs
          (create_access_token alg userId delta keyId secret now st).2.2) with
    | none =>
      rw [hlz] at hpres
      exact absurd hpres (by simp)
    | some key2 =>
      rw [hlz] at hpres
      have hmat : matOf key2 = matOf key := by simpa using hpres
      constructor
      · refine verify_parsed_ok alg _ key.key_id key2 "access" tv _ hkid hkne2 hlz htalg
          ?_ ?_ ?_
        · rw [sigMatches_matOf hmat]
          exact hsig
        · rw [hpayload]
          exact htv
        · rw [hpayload]
      · rw [hpayload]
  · refine ⟨by decide, by decide, by decide, by decide⟩

/-- Witness for C2: one rotation over a fresh HS256 deployment; the token
issued before the rotation still validates to a payload for `bob`. -/
theorem signing_key_rotation_claim_witness :
    verify_token "HS256" (.parsed (create_access_token "HS256" "bob" 90 "ka" "sa" 0 []).1)
        (some "access") 10
        (applyRotations "HS256" [("kb", "sb", 1)]
          (create_access_token "HS256" "bob" 90 "ka" "sa" 0 []).2.2)
      = some (create_access_token "HS256" "bob" 90 "ka" "sa" 0 []).1.payload
    ∧ (create_access_token "HS256" "bob" 90 "ka" "sa" 0 []).1.payload.sub = "bob" :=
  signing_key_rotation_claim.2.2.1 "HS256" "bob" 90 "ka" "sa" 0 [] [("kb", "sb", 1)] 10
    (Or.inl rfl) ⟨by simp [keyIds], by simp⟩ (by simp [keyIds]) (by decide)
    (by decide) (by decide)
